import Mathlib

/-!
Verification development for the `rcxlib` host-side link layer
(`src/rcxlib/RCX_Link.cpp`).  The definitions below are a shallow embedding of
the C++ source: byte buffers become `List Nat` (each entry a byte value),
C `int` results become `Int` (negative = error code), loops become
fuel-indexed structural recursions where the fuel is always sufficient for the
loop's actual iteration count, and the transport is an oracle of `Int` send
results.  Theorems about the embedding settle the specification claims.
-/

/-- The brick model, from `RCX_TargetType` (values used by `RCX_Link.cpp`:
`kRCX_RCXTarget`, `kRCX_CMTarget`, `kRCX_ScoutTarget`, `kRCX_RCX2Target`,
`kRCX_SpyboticsTarget`, `kRCX_SwanTarget`). -/
inductive RCX_TargetType
  | RCXTarget
  | CMTarget
  | ScoutTarget
  | RCX2Target
  | SpyboticsTarget
  | SwanTarget
deriving DecidableEq

/-- Modelled from the spec: `kRCX_OK` comes from `RCX_Result.h`, which is not
among the sources; the spec says non-negative results are reply lengths and
`kRCX_OK` is the success code. -/
def kRCX_OK : Int := 0

/-- Modelled from the spec: the `RCX_ERROR` predicate from `RCX_Result.h`
(absent from the sources); per the spec a result is an error iff it is a
negative code. -/
def RCX_ERROR (r : Int) : Bool := r < 0

/-- The 256-entry `nOnesDensity` table from `RCX_Link.cpp` (popcount of each
byte value), copied literally. -/
def nOnesDensity : List Nat :=
  [0, 1, 1, 2, 1, 2, 2, 3, 1, 2, 2, 3, 2, 3, 3, 4,
   1, 2, 2, 3, 2, 3, 3, 4, 2, 3, 3, 4, 3, 4, 4, 5,
   1, 2, 2, 3, 2, 3, 3, 4, 2, 3, 3, 4, 3, 4, 4, 5,
   2, 3, 3, 4, 3, 4, 4, 5, 3, 4, 4, 5, 4, 5, 5, 6,
   1, 2, 2, 3, 2, 3, 3, 4, 2, 3, 3, 4, 3, 4, 4, 5,
   2, 3, 3, 4, 3, 4, 4, 5, 3, 4, 4, 5, 4, 5, 5, 6,
   2, 3, 3, 4, 3, 4, 4, 5, 3, 4, 4, 5, 4, 5, 5, 6,
   3, 4, 4, 5, 4, 5, 5, 6, 4, 5, 5, 6, 5, 6, 6, 7,
   1, 2, 2, 3, 2, 3, 3, 4, 2, 3, 3, 4, 3, 4, 4, 5,
   2, 3, 3, 4, 3, 4, 4, 5, 3, 4, 4, 5, 4, 5, 5, 6,
   2, 3, 3, 4, 3, 4, 4, 5, 3, 4, 4, 5, 4, 5, 5, 6,
   3, 4, 4, 5, 4, 5, 5, 6, 4, 5, 5, 6, 5, 6, 6, 7,
   2, 3, 3, 4, 3, 4, 4, 5, 3, 4, 4, 5, 4, 5, 5, 6,
   3, 4, 4, 5, 4, 5, 5, 6, 4, 5, 5, 6, 5, 6, 6, 7,
   3, 4, 4, 5, 4, 5, 5, 6, 4, 5, 5, 6, 5, 6, 6, 7,
   4, 5, 5, 6, 5, 6, 6, 7, 5, 6, 6, 7, 6, 7, 7, 8]

/-- The value of loop counter `j` after the inner zero-counting loop of
`RCX_Link::AdjustChunkSize` (lines 569-574): the number of consecutive zero
bytes starting at index `i`, capped at `cap` (the loop bound `fMaxZeros`). -/
def zeroRunLen (data : List Nat) (i : Nat) : Nat → Nat
  | 0 => 0
  | cap + 1 => if data.getD i 0 ≠ 0 then 0 else zeroRunLen data (i + 1) cap + 1

/-- One step of the outer zero-run scan of `RCX_Link::AdjustChunkSize`
(lines 560-582).  `i` is the scan index, the fuel argument bounds the number of
remaining iterations; the fuel chosen in `zeroScan` always outlasts the loop
condition `i < size - fMaxZeros`, so exhaustion coincides with normal exit. -/
def zeroScanAux (fMaxZeros : Nat) (data : List Nat) (size : Nat) : Nat → Nat → Nat
  | _, 0 => size
  | i, fuel + 1 =>
    if i < size - fMaxZeros then
      if data.getD i 0 ≠ 0 then zeroScanAux fMaxZeros data size (i + 1) fuel
      else if fMaxZeros ≤ zeroRunLen data i fMaxZeros then i + fMaxZeros
      else zeroScanAux fMaxZeros data size (i + 1) fuel
    else size

/-- The zero-run scan of `RCX_Link::AdjustChunkSize`: shrink `size` to
`i + fMaxZeros` at the first index `i` whose run of consecutive zeros reaches
`fMaxZeros`. -/
def zeroScan (fMaxZeros : Nat) (data : List Nat) (size : Nat) : Nat :=
  zeroScanAux fMaxZeros data size 0 size

/-- The value of loop counter `j` after the inner sparse-byte loop of
`RCX_Link::AdjustChunkSize` (lines 595-607), with `score` the running
`nLotsOfOnes` counter (`kOnesPlusMinusScore = 3`); Nat-truncated `score - 2`
equals the source's `max(0, nLotsOfOnes - 2)`. -/
def sparseRunJ (fMaxOnes : Nat) (data : List Nat) (i : Nat) : Nat → Nat → Nat → Nat
  | j, _, 0 => j
  | j, score, fuel + 1 =>
    if j < fMaxOnes then
      if 3 ≤ nOnesDensity.getD (data.getD (i + j) 0) 0 then
        if 3 < score + 1 then j
        else sparseRunJ fMaxOnes data i (j + 1) (score + 1) fuel
      else sparseRunJ fMaxOnes data i (j + 1) (score - 2) fuel
    else j

/-- The inner sparse-byte loop started with `j = 0`, `nLotsOfOnes = 0`. -/
def sparseJ (fMaxOnes : Nat) (data : List Nat) (i : Nat) : Nat :=
  sparseRunJ fMaxOnes data i 0 0 fMaxOnes

/-- One step of the outer sparse-byte scan of `RCX_Link::AdjustChunkSize`
(lines 584-615), fuel-indexed like `zeroScanAux`. -/
def sparseScanAux (fMaxOnes : Nat) (data : List Nat) (size : Nat) : Nat → Nat → Nat
  | _, 0 => size
  | i, fuel + 1 =>
    if i < size - fMaxOnes then
      if 3 ≤ nOnesDensity.getD (data.getD i 0) 0 then
        sparseScanAux fMaxOnes data size (i + 1) fuel
      else if fMaxOnes ≤ sparseJ fMaxOnes data i then max i fMaxOnes
      else sparseScanAux fMaxOnes data size (i + 1) fuel
    else size

/-- The sparse-byte scan of `RCX_Link::AdjustChunkSize`: shrink `size` to
`max i fMaxOnes` at the first sparse byte followed by a `fMaxOnes`-long
low-density region. -/
def sparseScan (fMaxOnes : Nat) (data : List Nat) (size : Nat) : Nat :=
  sparseScanAux fMaxOnes data size 0 size

/-- `RCX_Link::AdjustChunkSize(n, data, bComplement)` (lines 546-619).
`fMaxZeros` and `fMaxOnes` are the link fields (defaults 23 on USB / 30 on
serial, and 90).  With complement-byte transmission enabled the proposed size
is returned unchanged; otherwise the zero-run scan runs first and the
sparse-byte scan runs over the possibly shrunk size. -/
def RCX_Link.AdjustChunkSize (fMaxZeros fMaxOnes : Nat) (n : Nat) (data : List Nat)
    (bComplement : Bool) : Nat :=
  if bComplement then n
  else sparseScan fMaxOnes data (zeroScan fMaxZeros data n)

/-- The static `Checksum(data, length)` helper of `RCX_Link.cpp` (lines
789-796): additive running sum of the first `length` bytes.  The source
accumulates in a C `int`; for every length the callers pass (at most `0x4C00`
bytes, each below 256) the sum stays far below `2^31`, so plain `Nat`
addition is exact.  Reads past the end of `data` (undefined behavior in the
source, never exercised by its callers) contribute 0. -/
def Checksum : List Nat → Nat → Nat
  | _, 0 => 0
  | [], _ + 1 => 0
  | b :: rest, length + 1 => b + Checksum rest length

/-- The checksum argument `RCX_Link::TransferFirmware` computes at line 502:
`Checksum(data, length < 0x4c00 ? length : 0x4c00)`. -/
def RCX_Link.TransferFirmwareCheck (data : List Nat) (length : Nat) : Nat :=
  Checksum data (if length < 0x4C00 then length else 0x4C00)

/-- The two checksum bytes placed into the `BeginFirmware` command at
lines 503-504: `(UByte)check` and `(UByte)(check >> 8)`. -/
def RCX_Link.TransferFirmwareCheckBytes (data : List Nat) (length : Nat) : Nat × Nat :=
  (RCX_Link.TransferFirmwareCheck data length % 256,
   (RCX_Link.TransferFirmwareCheck data length >>> 8) % 256)

/-- Modelled from the spec: opcode constants come from `RCX_Constants.h`,
which is not among the sources; the values follow the RCX wire protocol.
Only their pairwise distinctness under the `0xF7` mask is used by the
dispatch in `RCX_Link::ExpectedReplyLength`. -/
def kRCX_BeginTaskOp : Nat := 0x25

/-- Modelled from the spec: see `kRCX_BeginTaskOp`. -/
def kRCX_BeginSubOp : Nat := 0x35

/-- Modelled from the spec: see `kRCX_BeginTaskOp`. -/
def kRCX_DownloadOp : Nat := 0x45

/-- Modelled from the spec: see `kRCX_BeginTaskOp`. -/
def kRCX_BeginFirmwareOp : Nat := 0x75

/-- Modelled from the spec: see `kRCX_BeginTaskOp`. -/
def kRCX_BatteryLevelOp : Nat := 0x30

/-- Modelled from the spec: see `kRCX_BeginTaskOp`. -/
def kRCX_ReadOp : Nat := 0x12

/-- Modelled from the spec: see `kRCX_BeginTaskOp`. -/
def kRCX_GetVersions : Nat := 0x15

/-- Modelled from the spec: see `kRCX_BeginTaskOp`. -/
def kRCX_UploadEepromOp : Nat := 0x11

/-- Modelled from the spec: see `kRCX_BeginTaskOp`. -/
def kRCX_UnlockOp : Nat := 0xa5

/-- Modelled from the spec: see `kRCX_BeginTaskOp`. -/
def kRCX_GetMemMap : Nat := 0x20

/-- Modelled from the spec: see `kRCX_BeginTaskOp`. -/
def kRCX_PollMemoryOp : Nat := 0x63

/-- Modelled from the spec: see `kRCX_BeginTaskOp`. -/
def kRCX_UploadDatalogOp : Nat := 0xa4

/-- `RCX_Link::ExpectedReplyLength(data, length)` (lines 732-765): a switch on
`data[0] & 0xf7`, consulting `fTarget` for the `UploadEeprom` and `GetMemMap`
rows and bytes 3-4 of the command for the `PollMemory` and `UploadDatalog`
rows.  The commented-out `Message`/`Remote` cases of the source fall through
to the default `1`, exactly as here. -/
def RCX_Link.ExpectedReplyLength (fTarget : RCX_TargetType) (data : List Nat)
    (length : Nat) : Nat :=
  let op := data.getD 0 0 &&& 0xf7
  if op = kRCX_BeginTaskOp ∨ op = kRCX_BeginSubOp ∨ op = kRCX_DownloadOp ∨
      op = kRCX_BeginFirmwareOp then 2
  else if op = kRCX_BatteryLevelOp ∨ op = kRCX_ReadOp then 3
  else if op = kRCX_GetVersions then 9
  else if op = kRCX_UploadEepromOp then
    if fTarget = RCX_TargetType.CMTarget then 1 else 17
  else if op = kRCX_UnlockOp then 26
  else if op = kRCX_GetMemMap then
    if fTarget = RCX_TargetType.CMTarget then 21 else 189
  else if op = kRCX_PollMemoryOp then
    if length ≠ 4 then 0 else data.getD 3 0 + 1
  else if op = kRCX_UploadDatalogOp then
    if length ≠ 5 then 0 else (data.getD 3 0 + (data.getD 4 0 <<< 8)) * 3 + 1
  else 1

/-- The reply-length dispatch table exactly as the specification states it
(spec section 4.2), written independently of the source function: rows keyed
on the masked opcode, `PollMemory` and `UploadDatalog` guarded by the spec's
`if commandLength = ...` phrasing, and the datalog count assembled with the
spec's bitwise-or `command[3] | command[4] << 8`. -/
def replyLengthSpecTable (target : RCX_TargetType) (command : List Nat)
    (commandLength : Nat) : Nat :=
  let op := command.getD 0 0 &&& 0xf7
  if op = kRCX_BeginTaskOp ∨ op = kRCX_BeginSubOp ∨ op = kRCX_DownloadOp ∨
      op = kRCX_BeginFirmwareOp then 2
  else if op = kRCX_BatteryLevelOp ∨ op = kRCX_ReadOp then 3
  else if op = kRCX_GetVersions then 9
  else if op = kRCX_UploadEepromOp then
    if target = RCX_TargetType.CMTarget then 1 else 17
  else if op = kRCX_UnlockOp then 26
  else if op = kRCX_GetMemMap then
    if target = RCX_TargetType.CMTarget then 21 else 189
  else if op = kRCX_PollMemoryOp then
    if commandLength = 4 then command.getD 3 0 + 1 else 0
  else if op = kRCX_UploadDatalogOp then
    if commandLength = 5 then (command.getD 3 0 ||| (command.getD 4 0 <<< 8)) * 3 + 1
    else 0
  else 1

/-- The link-state fields of `RCX_Link` that the session claims are about:
whether a transport is held open (`fTransport` non-null and opened), the
`fSynced` flag, and the stored `fResult`. -/
structure LinkState where
  transportOpen : Bool
  fSynced : Bool
  fResult : Int
deriving DecidableEq

/-- `RCX_Link::Send` (lines 674-690) as it acts on the modelled state: the
transport outcome `r` (an oracle input: reply length, or negative error) is
stored in `fResult` and returned.  `fSynced` is not touched.  The oversize
check of the source rejects commands before they reach the transport and does
not touch the modelled fields either. -/
def RCX_Link.Send (r : Int) (s : LinkState) : LinkState × Int :=
  ({ s with fResult := r }, r)

/-- `RCX_Link::Sync` (lines 200-227).  `ora k` is the transport outcome of
the k-th `Send` performed by this call (ping, then the variant-specific
unlock commands).  Already-synced links return `kRCX_OK` immediately;
`fSynced` is set to true only after every required send succeeded. -/
def RCX_Link.Sync (fTarget : RCX_TargetType) (ora : Nat → Int) (s : LinkState) :
    LinkState × Int :=
  if s.fSynced then (s, kRCX_OK)
  else
    let p1 := RCX_Link.Send (ora 0) s
    if RCX_ERROR p1.2 then p1
    else if fTarget = RCX_TargetType.CMTarget then
      let p2 := RCX_Link.Send (ora 1) p1.1
      if RCX_ERROR p2.2 then p2
      else ({ p2.1 with fSynced := true }, kRCX_OK)
    else if fTarget = RCX_TargetType.ScoutTarget then
      let p2 := RCX_Link.Send (ora 1) p1.1
      if RCX_ERROR p2.2 then p2
      else
        let p3 := RCX_Link.Send (ora 2) p2.1
        if RCX_ERROR p3.2 then p3
        else ({ p3.1 with fSynced := true }, kRCX_OK)
    else ({ p1.1 with fSynced := true }, kRCX_OK)

/-- `RCX_Link::Close` (lines 190-197): closes and releases the transport.
No other field of the link is written; in particular `fSynced` keeps its
value. -/
def RCX_Link.Close (s : LinkState) : LinkState :=
  { s with transportOpen := false }

/-- `RCX_Link::Open` (lines 82-187) as it acts on the modelled state.
`transportOpenResult` is the outcome of `fTransport->Open` (device-name
resolution and transport construction perform no wire traffic);
`pingCtrlSendResult` is the transport outcome of the one `Send` that the
Spybotics branch (lines 168-173) performs.  The returned triple is the new
state, the result, and the number of `Transport::Send` invocations made
during the call.  On the `Fail_Open` path the transport is deleted and
`fSynced` is left as it was; on success `fSynced := false` and
`fResult := kRCX_OK` (lines 179-180). -/
def RCX_Link.Open (fTarget : RCX_TargetType) (transportOpenResult : Int)
    (pingCtrlSendResult : Int) (s : LinkState) : LinkState × Int × Nat :=
  if RCX_ERROR transportOpenResult then (s, transportOpenResult, 0)
  else
    let s1 : LinkState := { s with transportOpen := true }
    if fTarget = RCX_TargetType.SpyboticsTarget then
      let p := RCX_Link.Send pingCtrlSendResult s1
      if RCX_ERROR p.2 then (p.1, p.2, 1)
      else ({ p.1 with fSynced := false, fResult := kRCX_OK }, kRCX_OK, 1)
    else ({ s1 with fSynced := false, fResult := kRCX_OK }, kRCX_OK, 0)

/-- The progress-tracking fields of `RCX_Link` (`fDownloadTotal`,
`fDownloadSoFar`). -/
structure ProgressState where
  fDownloadTotal : Nat
  fDownloadSoFar : Nat
deriving DecidableEq

/-- `RCX_Link::BeginProgress(total)` (lines 711-715). -/
def RCX_Link.BeginProgress (total : Nat) : ProgressState :=
  { fDownloadTotal := total, fDownloadSoFar := 0 }

/-- `RCX_Link::IncrementProgress(delta)` (lines 718-723); `cb` is the virtual
`DownloadProgress` hook.  The callback runs only when `fDownloadTotal` is
nonzero; otherwise the call returns true without consulting `cb`. -/
def RCX_Link.IncrementProgress (cb : Nat → Nat → Nat → Bool) (p : ProgressState)
    (delta : Nat) : ProgressState × Bool :=
  let p1 : ProgressState := { p with fDownloadSoFar := p.fDownloadSoFar + delta }
  (p1, if p.fDownloadTotal ≠ 0 then cb p1.fDownloadSoFar p.fDownloadTotal delta else true)

/-- The default `RCX_Link::DownloadProgress` hook (lines 726-729): always
continue. -/
def RCX_Link.DownloadProgress (_soFar _total _chunkSize : Nat) : Bool :=
  true

/-- The progress initialization performed by `RCX_Link::TransferFirmware` at
line 508: `BeginProgress(progress ? length : 0)`. -/
def RCX_Link.TransferFirmwareProgressInit (progress : Bool) (length : Nat) :
    ProgressState :=
  RCX_Link.BeginProgress (if progress then length else 0)

/-- Outcome of a run of the chunk loop of `RCX_Link::Download`.  `ok` carries
the packets sent, each a pair of the `seq` value passed to `MakeDownload` and
the payload slice; `sendError r` is a propagated transport error; `abort` is
the `kRCX_AbortError` return of line 660; `outOfFuel` is unreachable when the
fuel is at least the payload length and the adaptor output stays positive. -/
inductive DLOut
  | ok (packets : List (Nat × List Nat))
  | sendError (r : Int)
  | abort
  | outOfFuel
deriving DecidableEq

/-- Prepend the packet of the current iteration to the packets of the rest of
the run. -/
def DLOut.consPacket (pkt : Nat × List Nat) : DLOut → DLOut
  | .ok l => .ok (pkt :: l)
  | e => e

/-- The body of the `while (remain > 0)` loop of `RCX_Link::Download`
(lines 621-665), one constructor step per iteration.  `data` holds the bytes
still to send (so `remain = data.length` and the advancing data pointer is
`data.drop n`), `seq` is the current 16-bit sequence counter (`seq++` wraps
modulo 2^16 because it is a `UShort`), `idx` numbers the sends so that
`ora idx` is the transport outcome of this iteration's `Send`, and `cb` is
the `DownloadProgress` hook consulted through `IncrementProgress`. -/
def downloadGo (fMaxZeros fMaxOnes chunk : Nat) (bComplement quiet programMode : Bool)
    (cb : Nat → Nat → Nat → Bool) (ora : Nat → Int) :
    Nat → Nat → Nat → ProgressState → List Nat → DLOut
  | 0, _, _, _, data => if data.isEmpty then .ok [] else .outOfFuel
  | fuel + 1, idx, seq, p, data =>
    if data.isEmpty then .ok []
    else
      let remain := data.length
      let seq1 := if remain ≤ chunk then (if !quiet || programMode then 0 else seq) else seq
      let n := RCX_Link.AdjustChunkSize fMaxZeros fMaxOnes
        (if remain ≤ chunk then remain else chunk) data bComplement
      if RCX_ERROR (ora idx) then .sendError (ora idx)
      else
        let pr := RCX_Link.IncrementProgress cb p n
        if pr.2 then
          DLOut.consPacket (seq1, data.take n)
            (downloadGo fMaxZeros fMaxOnes chunk bComplement quiet programMode cb ora
              fuel (idx + 1) ((seq1 + 1) % 65536) pr.1 (data.drop n))
        else .abort

/-- `RCX_Link::Download(data, length, chunk)`: the chunk loop started with
`seq = 1` over the whole payload.  The fuel `data.length` covers the loop's
iterations because every iteration consumes at least one payload byte when
the adaptor output is positive. -/
def RCX_Link.Download (fMaxZeros fMaxOnes : Nat) (bComplement quiet programMode : Bool)
    (cb : Nat → Nat → Nat → Bool) (ora : Nat → Int) (p : ProgressState)
    (data : List Nat) (chunk : Nat) : DLOut :=
  downloadGo fMaxZeros fMaxOnes chunk bComplement quiet programMode cb ora
    data.length 0 1 p data

lemma zeroRunLen_le (data : List Nat) : ∀ i cap, zeroRunLen data i cap ≤ cap := by
  intro i cap
  induction cap generalizing i with
  | zero => simp [zeroRunLen]
  | succ c ih =>
    simp only [zeroRunLen]
    split
    · omega
    · have := ih (i + 1)
      omega

lemma zeroScanAux_le (fMaxZeros : Nat) (data : List Nat) (size : Nat) :
    ∀ fuel i, zeroScanAux fMaxZeros data size i fuel ≤ size := by
  intro fuel
  induction fuel with
  | zero => intro i; simp [zeroScanAux]
  | succ f ih =>
    intro i
    simp only [zeroScanAux]
    split
    · split
      · exact ih (i + 1)
      · split
        · omega
        · exact ih (i + 1)
    · exact Nat.le_refl size

lemma zeroScanAux_pos (fMaxZeros : Nat) (data : List Nat) (size : Nat)
    (hz : 1 ≤ fMaxZeros) (hs : 1 ≤ size) :
    ∀ fuel i, 1 ≤ zeroScanAux fMaxZeros data size i fuel := by
  intro fuel
  induction fuel with
  | zero => intro i; simpa [zeroScanAux] using hs
  | succ f ih =>
    intro i
    simp only [zeroScanAux]
    split
    · split
      · exact ih (i + 1)
      · split
        · omega
        · exact ih (i + 1)
    · exact hs

lemma sparseScanAux_le (fMaxOnes : Nat) (data : List Nat) (size : Nat) :
    ∀ fuel i, sparseScanAux fMaxOnes data size i fuel ≤ size := by
  intro fuel
  induction fuel with
  | zero => intro i; simp [sparseScanAux]
  | succ f ih =>
    intro i
    simp only [sparseScanAux]
    split
    · split
      · exact ih (i + 1)
      · split
        · omega
        · exact ih (i + 1)
    · exact Nat.le_refl size

lemma sparseScanAux_pos (fMaxOnes : Nat) (data : List Nat) (size : Nat)
    (ho : 1 ≤ fMaxOnes) (hs : 1 ≤ size) :
    ∀ fuel i, 1 ≤ sparseScanAux fMaxOnes data size i fuel := by
  intro fuel
  induction fuel with
  | zero => intro i; simpa [sparseScanAux] using hs
  | succ f ih =>
    intro i
    simp only [sparseScanAux]
    split
    · split
      · exact ih (i + 1)
      · split
        · omega
        · exact ih (i + 1)
    · exact hs

lemma adjustChunkSize_bounds (fMaxZeros fMaxOnes n : Nat) (data : List Nat)
    (bComplement : Bool) (hz : 1 ≤ fMaxZeros) (ho : 1 ≤ fMaxOnes) (hn : 1 ≤ n) :
    1 ≤ RCX_Link.AdjustChunkSize fMaxZeros fMaxOnes n data bComplement ∧
      RCX_Link.AdjustChunkSize fMaxZeros fMaxOnes n data bComplement ≤ n := by
  cases bComplement with
  | true => simp [RCX_Link.AdjustChunkSize]; omega
  | false =>
    simp only [RCX_Link.AdjustChunkSize, Bool.false_eq_true, if_false]
    have h1 : zeroScan fMaxZeros data n ≤ n := zeroScanAux_le fMaxZeros data n n 0
    have h2 : 1 ≤ zeroScan fMaxZeros data n := zeroScanAux_pos fMaxZeros data n hz hn n 0
    have h3 := sparseScanAux_le fMaxOnes data (zeroScan fMaxZeros data n)
      (zeroScan fMaxZeros data n) 0
    have h4 := sparseScanAux_pos fMaxOnes data (zeroScan fMaxZeros data n) ho h2
      (zeroScan fMaxZeros data n) 0
    unfold sparseScan
    omega

lemma zeroScan_of_le (fMaxZeros : Nat) (data : List Nat) (size : Nat)
    (h : size ≤ fMaxZeros) : zeroScan fMaxZeros data size = size := by
  unfold zeroScan
  cases size with
  | zero => simp [zeroScanAux]
  | succ s =>
    simp only [zeroScanAux]
    have : ¬ (0 < s + 1 - fMaxZeros) := by omega
    simp [this]

lemma sparseScan_of_le (fMaxOnes : Nat) (data : List Nat) (size : Nat)
    (h : size ≤ fMaxOnes) : sparseScan fMaxOnes data size = size := by
  unfold sparseScan
  cases size with
  | zero => simp [sparseScanAux]
  | succ s =>
    simp only [sparseScanAux]
    have : ¬ (0 < s + 1 - fMaxOnes) := by omega
    simp [this]

lemma adjustChunkSize_id_of_small (fMaxZeros fMaxOnes n : Nat) (data : List Nat)
    (hz : n ≤ fMaxZeros) (ho : n ≤ fMaxOnes) :
    RCX_Link.AdjustChunkSize fMaxZeros fMaxOnes n data false = n := by
  simp only [RCX_Link.AdjustChunkSize, Bool.false_eq_true, if_false]
  rw [zeroScan_of_le fMaxZeros data n hz, sparseScan_of_le fMaxOnes data n ho]

lemma checksum_length_eq_sum : ∀ data : List Nat, Checksum data data.length = data.sum := by
  intro data
  induction data with
  | nil => simp [Checksum]
  | cons b rest ih => simp [Checksum, ih]

lemma lor_shift8_eq_add (x y : Nat) (h : x < 256) : x ||| (y <<< 8) = x + (y <<< 8) := by
  have h8 : y <<< 8 = 2 ^ 8 * y := by
    rw [Nat.shiftLeft_eq]; ring
  rw [h8, Nat.or_comm, ← Nat.mul_add_lt_is_or (by norm_num [h] : x < 2 ^ 8)]
  omega

lemma zeroScanAux_first_hit (fMaxZeros : Nat) (data : List Nat) (size i0 : Nat)
    (h0 : i0 < size - fMaxZeros) (hz : data.getD i0 0 = 0)
    (hrun : fMaxZeros ≤ zeroRunLen data i0 fMaxZeros)
    (hmin : ∀ i', i' < i0 →
      ¬(data.getD i' 0 = 0 ∧ fMaxZeros ≤ zeroRunLen data i' fMaxZeros)) :
    ∀ fuel i, i ≤ i0 → i0 - i < fuel →
      zeroScanAux fMaxZeros data size i fuel = i0 + fMaxZeros := by
  intro fuel
  induction fuel with
  | zero => intro i hi hf; omega
  | succ f ih =>
    intro i hi hf
    simp only [zeroScanAux]
    rw [if_pos (by omega : i < size - fMaxZeros)]
    rcases Nat.lt_or_ge i i0 with hlt | hge
    · by_cases hb : data.getD i 0 ≠ 0
      · rw [if_pos hb]
        exact ih (i + 1) (by omega) (by omega)
      · rw [if_neg hb]
        have hq : ¬ fMaxZeros ≤ zeroRunLen data i fMaxZeros := fun hc =>
          hmin i hlt ⟨by simpa using hb, hc⟩
        rw [if_neg hq]
        exact ih (i + 1) (by omega) (by omega)
    · have hieq : i = i0 := by omega
      subst hieq
      rw [if_neg (fun hne => hne hz : ¬ data.getD i 0 ≠ 0), if_pos hrun]

/-- C7: with complement-byte transmission enabled, `AdjustChunkSize` returns
the proposed length unchanged, for every proposed length and payload. -/
theorem adjustChunkSize_complement_id (fMaxZeros fMaxOnes n : Nat) (data : List Nat) :
    RCX_Link.AdjustChunkSize fMaxZeros fMaxOnes n data true = n := rfl

/-- C8: with complement-byte transmission disabled, `AdjustChunkSize` returns
a length between 1 and the proposed length `n`, for every `n ≥ 1` and payload
(the run-length thresholds `fMaxZeros`, `fMaxOnes` are positive at every call
site: 23 or 30, and 90). -/
theorem adjustChunkSize_in_range (fMaxZeros fMaxOnes n : Nat) (data : List Nat)
    (hn : 1 ≤ n) (hz : 1 ≤ fMaxZeros) (ho : 1 ≤ fMaxOnes) :
    1 ≤ RCX_Link.AdjustChunkSize fMaxZeros fMaxOnes n data false ∧
      RCX_Link.AdjustChunkSize fMaxZeros fMaxOnes n data false ≤ n :=
  adjustChunkSize_bounds fMaxZeros fMaxOnes n data false hz ho hn

theorem adjustChunkSize_in_range_witness :
    1 ≤ RCX_Link.AdjustChunkSize 23 90 100 (List.replicate 100 0) false ∧
      RCX_Link.AdjustChunkSize 23 90 100 (List.replicate 100 0) false ≤ 100 :=
  adjustChunkSize_in_range 23 90 100 (List.replicate 100 0) (by decide) (by decide)
    (by decide)

/-- C9: the zero-run scan stops at the first index `i0` (walked from 0, below
`n - fMaxZeros`) holding a zero byte whose run of consecutive zeros reaches
`fMaxZeros`, and the adapted length becomes `i0 + fMaxZeros`; in particular
adjusting 100 bytes of zeros with `fMaxZeros = 23` yields 23. -/
theorem zeroScan_first_hit (fMaxZeros n i0 : Nat) (data : List Nat)
    (h0 : i0 < n - fMaxZeros) (hz : data.getD i0 0 = 0)
    (hrun : fMaxZeros ≤ zeroRunLen data i0 fMaxZeros)
    (hmin : ∀ i', i' < i0 →
      ¬(data.getD i' 0 = 0 ∧ fMaxZeros ≤ zeroRunLen data i' fMaxZeros)) :
    zeroScan fMaxZeros data n = i0 + fMaxZeros ∧
      RCX_Link.AdjustChunkSize 23 90 100 (List.replicate 100 0) false = 23 := by
  refine ⟨?_, by decide⟩
  exact zeroScanAux_first_hit fMaxZeros data n i0 h0 hz hrun hmin n 0 (Nat.zero_le i0)
    (by omega)

theorem zeroScan_first_hit_witness :
    zeroScan 23 (List.replicate 100 0) 100 = 0 + 23 ∧
      RCX_Link.AdjustChunkSize 23 90 100 (List.replicate 100 0) false = 23 :=
  zeroScan_first_hit 23 100 0 (List.replicate 100 0) (by decide) (by decide) (by decide)
    (fun i h => absurd h (Nat.not_lt_zero i))

/-- C5: the checksum passed to `BeginFirmware` is the additive sum of the
first `min(length, 0x4C00)` firmware bytes with the low 16 bits taken: the
two checksum bytes reassemble to the sum modulo 2^16 whenever the image is at
most `0x4C00` bytes, in which case the `Checksum` helper itself returns the
plain sum of all bytes. -/
theorem transferFirmware_checksum_spec (data : List Nat) (h : data.length ≤ 0x4C00) :
    (RCX_Link.TransferFirmwareCheckBytes data data.length).1 +
        256 * (RCX_Link.TransferFirmwareCheckBytes data data.length).2 =
      data.sum % 65536 ∧
    RCX_Link.TransferFirmwareCheck data data.length = data.sum ∧
    (∀ len : Nat, RCX_Link.TransferFirmwareCheck data len =
      Checksum data (min len 0x4C00)) := by
  have hc : RCX_Link.TransferFirmwareCheck data data.length = data.sum := by
    unfold RCX_Link.TransferFirmwareCheck
    split
    · exact checksum_length_eq_sum data
    · have hlen : data.length = 0x4C00 := by omega
      rw [← hlen]
      exact checksum_length_eq_sum data
  refine ⟨?_, hc, ?_⟩
  · unfold RCX_Link.TransferFirmwareCheckBytes
    rw [hc, Nat.shiftRight_eq_div_pow]
    have h28 : (2 : Nat) ^ 8 = 256 := by norm_num
    rw [h28]
    omega
  · intro len
    unfold RCX_Link.TransferFirmwareCheck
    congr 1
    split <;> omega

theorem transferFirmware_checksum_spec_witness :
    RCX_Link.TransferFirmwareCheck [1, 2, 3, 4] 4 = 10 := by
  have h := (transferFirmware_checksum_spec [1, 2, 3, 4] (by decide)).2.1
  simpa using h

set_option maxHeartbeats 1000000 in
/-- C4: `ExpectedReplyLength` is a pure function of the command bytes, length
and target, and agrees row for row with the spec's dispatch table keyed on
`opcode & 0xF7` (with the spec's `command[3] | command[4] << 8` equal to the
source's addition because `command[3]` is a byte); the three scenario values
from the spec follow. -/
theorem expectedReplyLength_matches_table (target : RCX_TargetType)
    (data : List Nat) (length : Nat) (h3 : data.getD 3 0 < 256) :
    RCX_Link.ExpectedReplyLength target data length =
        replyLengthSpecTable target data length ∧
      RCX_Link.ExpectedReplyLength RCX_TargetType.RCX2Target [0x15] 1 = 9 ∧
      RCX_Link.ExpectedReplyLength RCX_TargetType.RCX2Target [0x63, 0, 0, 5] 4 = 6 ∧
      RCX_Link.ExpectedReplyLength RCX_TargetType.RCX2Target
        [0xa4, 0, 0, 0x10, 0x00] 5 = 49 := by
  refine ⟨?_, by decide, by decide, by decide⟩
  simp only [RCX_Link.ExpectedReplyLength, replyLengthSpecTable]
  generalize (data.getD 0 0 &&& 0xf7) = op
  split_ifs <;> first
    | rfl
    | omega
    | (rw [lor_shift8_eq_add _ _ h3])

theorem expectedReplyLength_matches_table_witness :
    RCX_Link.ExpectedReplyLength RCX_TargetType.RCX2Target [0x15] 1 =
        replyLengthSpecTable RCX_TargetType.RCX2Target [0x15] 1 ∧
      RCX_Link.ExpectedReplyLength RCX_TargetType.RCX2Target [0x15] 1 = 9 :=
  ⟨(expectedReplyLength_matches_table RCX_TargetType.RCX2Target [0x15] 1 (by decide)).1,
   (expectedReplyLength_matches_table RCX_TargetType.RCX2Target [0x15] 1 (by decide)).2.1⟩

/-- C3 counterexample: opening a link for the Spybotics target with a
transport that opens successfully issues one `Transport::Send` (the
ping-control-off command of lines 168-173), so Open is not wire-silent for
every target. -/
theorem open_sends_counterexample :
    (RCX_Link.Open RCX_TargetType.SpyboticsTarget 0 0
        { transportOpen := false, fSynced := false, fResult := 0 }).2.2 = 1 := by
  decide

/-- C3 amended: `Open` issues no wire traffic except for the Spybotics
target, where exactly one command (spybot ping-control off) is sent once the
transport has opened successfully; for every other target, and on transport
open failure, no `Transport::Send` occurs. -/
theorem open_sends_iff_spybotics (fTarget : RCX_TargetType) (tor psr : Int)
    (s : LinkState) :
    (RCX_Link.Open fTarget tor psr s).2.2 =
      if 0 ≤ tor ∧ fTarget = RCX_TargetType.SpyboticsTarget then 1 else 0 := by
  by_cases h1 : RCX_ERROR tor = true
  · have htor : ¬ (0 ≤ tor) := by simp [RCX_ERROR] at h1; omega
    simp [RCX_Link.Open, h1, htor]
  · have htor : 0 ≤ tor := by simp [RCX_ERROR] at h1; omega
    by_cases h2 : fTarget = RCX_TargetType.SpyboticsTarget
    · by_cases h3 : RCX_ERROR psr = true
      · simp [RCX_Link.Open, RCX_Link.Send, h1, h2, h3, htor]
      · simp [RCX_Link.Open, RCX_Link.Send, h1, h2, h3, htor]
    · simp [RCX_Link.Open, RCX_Link.Send, h1, h2, htor]

/-- C2 counterexample: after a successful Open followed by a successful Sync,
`fSynced` is true; a subsequent `Close` leaves it true (Close only releases
the transport, lines 190-197), and so does a failing `Send` (lines 674-690
store the error in `fResult` only).  The claim's "false after Close and
after any send error" therefore fails on the code. -/
theorem synced_flag_counterexample :
    (RCX_Link.Close (RCX_Link.Sync RCX_TargetType.RCXTarget (fun _ => 0)
        (RCX_Link.Open RCX_TargetType.RCXTarget 0 0
          { transportOpen := false, fSynced := false, fResult := 0 }).1).1).fSynced
      = true ∧
    ((RCX_Link.Send (-1) (RCX_Link.Sync RCX_TargetType.RCXTarget (fun _ => 0)
        (RCX_Link.Open RCX_TargetType.RCXTarget 0 0
          { transportOpen := false, fSynced := false, fResult := 0 }).1).1).1).fSynced
      = true := by
  exact ⟨rfl, rfl⟩

/-- C2 amended: `fSynced` is true after every successful `Sync` and false
after every successful `Open`; `Close` and `Send` (in particular a failing
send) leave `fSynced` unchanged — callers rely on Open resetting it. -/
theorem synced_flag_transitions (fTarget : RCX_TargetType) (ora : Nat → Int)
    (tor psr r : Int) (s : LinkState) :
    (0 ≤ (RCX_Link.Sync fTarget ora s).2 →
      ((RCX_Link.Sync fTarget ora s).1).fSynced = true) ∧
    (0 ≤ (RCX_Link.Open fTarget tor psr s).2.1 →
      ((RCX_Link.Open fTarget tor psr s).1).fSynced = false) ∧
    (RCX_Link.Close s).fSynced = s.fSynced ∧
    ((RCX_Link.Send r s).1).fSynced = s.fSynced := by
  refine ⟨?_, ?_, rfl, rfl⟩
  · intro h
    by_cases hs : s.fSynced
    · simp [RCX_Link.Sync, hs]
    · by_cases h1 : RCX_ERROR (ora 0) = true
      · exfalso
        simp [RCX_Link.Sync, RCX_Link.Send, hs, h1] at h
        simp [RCX_ERROR] at h1
        omega
      · by_cases h2 : fTarget = RCX_TargetType.CMTarget
        · by_cases h3 : RCX_ERROR (ora 1) = true
          · exfalso
            simp [RCX_Link.Sync, RCX_Link.Send, hs, h1, h2, h3] at h
            simp [RCX_ERROR] at h3
            omega
          · simp [RCX_Link.Sync, RCX_Link.Send, hs, h1, h2, h3]
        · by_cases h4 : fTarget = RCX_TargetType.ScoutTarget
          · by_cases h3 : RCX_ERROR (ora 1) = true
            · exfalso
              simp [RCX_Link.Sync, RCX_Link.Send, hs, h1, h2, h3, h4] at h
              simp [RCX_ERROR] at h3
              omega
            · by_cases h5 : RCX_ERROR (ora 2) = true
              · exfalso
                simp [RCX_Link.Sync, RCX_Link.Send, hs, h1, h2, h3, h4, h5] at h
                simp [RCX_ERROR] at h5
                omega
              · simp [RCX_Link.Sync, RCX_Link.Send, hs, h1, h2, h3, h4, h5]
          · simp [RCX_Link.Sync, RCX_Link.Send, hs, h1, h2, h4]
  · intro h
    by_cases h1 : RCX_ERROR tor = true
    · exfalso
      simp [RCX_Link.Open, h1] at h
      simp [RCX_ERROR] at h1
      omega
    · by_cases h2 : fTarget = RCX_TargetType.SpyboticsTarget
      · by_cases h3 : RCX_ERROR psr = true
        · exfalso
          simp [RCX_Link.Open, RCX_Link.Send, h1, h2, h3] at h
          simp [RCX_ERROR] at h3
          omega
        · simp [RCX_Link.Open, RCX_Link.Send, h1, h2, h3]
      · simp [RCX_Link.Open, RCX_Link.Send, h1, h2]

theorem synced_flag_transitions_witness :
    ((RCX_Link.Sync RCX_TargetType.RCXTarget (fun _ => 0)
        { transportOpen := true, fSynced := false, fResult := 0 }).1).fSynced = true ∧
    ((RCX_Link.Open RCX_TargetType.RCXTarget 0 0
        { transportOpen := false, fSynced := false, fResult := 0 }).1).fSynced = false :=
  ⟨(synced_flag_transitions RCX_TargetType.RCXTarget (fun _ => 0) 0 0 0
      { transportOpen := true, fSynced := false, fResult := 0 }).1 (by decide),
   (synced_flag_transitions RCX_TargetType.RCXTarget (fun _ => 0) 0 0 0
      { transportOpen := false, fSynced := false, fResult := 0 }).2.1 (by decide)⟩

lemma downloadGo_nil (mz mo chunk : Nat) (bc q pm : Bool) (cb : Nat → Nat → Nat → Bool)
    (ora : Nat → Int) (fuel idx seq : Nat) (p : ProgressState) :
    downloadGo mz mo chunk bc q pm cb ora fuel idx seq p [] = DLOut.ok [] := by
  cases fuel <;> simp [downloadGo]

lemma downloadGo_step (mz mo chunk : Nat) (bc q pm : Bool) (cb : Nat → Nat → Nat → Bool)
    (ora : Nat → Int) (f idx seq : Nat) (p : ProgressState) (data : List Nat)
    (hne : data ≠ []) :
    downloadGo mz mo chunk bc q pm cb ora (f + 1) idx seq p data =
      (if RCX_ERROR (ora idx) then DLOut.sendError (ora idx)
       else if (RCX_Link.IncrementProgress cb p (RCX_Link.AdjustChunkSize mz mo
           (if data.length ≤ chunk then data.length else chunk) data bc)).2 then
         DLOut.consPacket
           ((if data.length ≤ chunk then (if !q || pm then 0 else seq) else seq),
            data.take (RCX_Link.AdjustChunkSize mz mo
              (if data.length ≤ chunk then data.length else chunk) data bc))
           (downloadGo mz mo chunk bc q pm cb ora f (idx + 1)
             (((if data.length ≤ chunk then (if !q || pm then 0 else seq) else seq) + 1)
               % 65536)
             (RCX_Link.IncrementProgress cb p (RCX_Link.AdjustChunkSize mz mo
               (if data.length ≤ chunk then data.length else chunk) data bc)).1
             (data.drop (RCX_Link.AdjustChunkSize mz mo
               (if data.length ≤ chunk then data.length else chunk) data bc)))
       else DLOut.abort) := by
  conv_lhs => rw [downloadGo]
  rw [if_neg (by simpa using hne)]

lemma incrementProgress_snd_of_cb (cb : Nat → Nat → Nat → Bool) (p : ProgressState)
    (delta : Nat) (hcb : ∀ a b c, cb a b c = true) :
    (RCX_Link.IncrementProgress cb p delta).2 = true := by
  simp only [RCX_Link.IncrementProgress]
  split
  · exact hcb _ _ _
  · rfl

lemma consPacket_ne_abort (pkt : Nat × List Nat) (d : DLOut) (h : d ≠ DLOut.abort) :
    DLOut.consPacket pkt d ≠ DLOut.abort := by
  cases d <;> simp_all [DLOut.consPacket]

lemma downloadGo_total_zero_ne_abort (mz mo chunk : Nat) (bc q pm : Bool)
    (cb : Nat → Nat → Nat → Bool) (ora : Nat → Int) :
    ∀ fuel idx seq p data, p.fDownloadTotal = 0 →
      downloadGo mz mo chunk bc q pm cb ora fuel idx seq p data ≠ DLOut.abort := by
  intro fuel
  induction fuel with
  | zero =>
    intro idx seq p data hp
    simp only [downloadGo]
    split <;> simp
  | succ f ih =>
    intro idx seq p data hp
    rcases eq_or_ne data [] with hd | hd
    · subst hd
      rw [downloadGo_nil]
      simp
    · rw [downloadGo_step mz mo chunk bc q pm cb ora f idx seq p data hd]
      split
      · simp
      · have hcont : (RCX_Link.IncrementProgress cb p (RCX_Link.AdjustChunkSize mz mo
            (if data.length ≤ chunk then data.length else chunk) data bc)).2 = true := by
          simp [RCX_Link.IncrementProgress, hp]
        rw [if_pos hcont]
        apply consPacket_ne_abort
        apply ih
        simp [RCX_Link.IncrementProgress, hp]

lemma downloadGo_ok_join (mz mo chunk : Nat) (bc q pm : Bool)
    (cb : Nat → Nat → Nat → Bool) (ora : Nat → Int)
    (hcb : ∀ a b c, cb a b c = true)
    (hchunk : 1 ≤ chunk) (hz : 1 ≤ mz) (ho : 1 ≤ mo) (hora : ∀ k, 0 ≤ ora k) :
    ∀ fuel idx seq p data, data.length ≤ fuel →
      ∃ l, downloadGo mz mo chunk bc q pm cb ora fuel idx seq p data = DLOut.ok l ∧
        (l.map fun pk => pk.2).flatten = data := by
  intro fuel
  induction fuel with
  | zero =>
    intro idx seq p data hlen
    have hd : data = [] := List.eq_nil_of_length_eq_zero (by omega)
    subst hd
    exact ⟨[], downloadGo_nil mz mo chunk bc q pm cb ora 0 idx seq p, by simp⟩
  | succ f ih =>
    intro idx seq p data hlen
    rcases eq_or_ne data [] with hd | hd
    · subst hd
      exact ⟨[], downloadGo_nil mz mo chunk bc q pm cb ora (f + 1) idx seq p, by simp⟩
    · have hpos : 0 < data.length := List.length_pos.mpr hd
      have hn0a : 1 ≤ (if data.length ≤ chunk then data.length else chunk) := by
        split <;> omega
      have hn0b : (if data.length ≤ chunk then data.length else chunk) ≤ data.length := by
        split <;> omega
      obtain ⟨ha1, ha2⟩ := adjustChunkSize_bounds mz mo
        (if data.length ≤ chunk then data.length else chunk) data bc hz ho hn0a
      have hsend : ¬ RCX_ERROR (ora idx) = true := by
        simp only [RCX_ERROR, decide_eq_true_eq, not_lt]
        exact hora idx
      have hcont := incrementProgress_snd_of_cb cb p (RCX_Link.AdjustChunkSize mz mo
        (if data.length ≤ chunk then data.length else chunk) data bc) hcb
      obtain ⟨l1, hl1, hjoin⟩ := ih (idx + 1)
        (((if data.length ≤ chunk then (if !q || pm then 0 else seq) else seq) + 1) % 65536)
        (RCX_Link.IncrementProgress cb p (RCX_Link.AdjustChunkSize mz mo
          (if data.length ≤ chunk then data.length else chunk) data bc)).1
        (data.drop (RCX_Link.AdjustChunkSize mz mo
          (if data.length ≤ chunk then data.length else chunk) data bc))
        (by simp only [List.length_drop]; omega)
      refine ⟨((if data.length ≤ chunk then (if !q || pm then 0 else seq) else seq),
        data.take (RCX_Link.AdjustChunkSize mz mo
          (if data.length ≤ chunk then data.length else chunk) data bc)) :: l1, ?_, ?_⟩
      · rw [downloadGo_step mz mo chunk bc q pm cb ora f idx seq p data hd,
          if_neg hsend, if_pos hcont, hl1]
        rfl
      · simp only [List.map_cons, List.flatten_cons, hjoin]
        exact List.take_append_drop _ data

lemma downloadGo_seq_shape (mz mo chunk : Nat) (bc q pm : Bool)
    (cb : Nat → Nat → Nat → Bool) (ora : Nat → Int)
    (hcb : ∀ a b c, cb a b c = true) (hora : ∀ k, 0 ≤ ora k) (hchunk : 1 ≤ chunk)
    (hadj : ∀ m d, m ≤ chunk → RCX_Link.AdjustChunkSize mz mo m d bc = m) :
    ∀ fuel idx seq p data, data ≠ [] → data.length ≤ fuel → 1 ≤ seq →
      seq + data.length ≤ 65536 →
      ∃ l, downloadGo mz mo chunk bc q pm cb ora fuel idx seq p data = DLOut.ok l ∧
        1 ≤ l.length ∧
        (∀ i, i + 1 < l.length → (l.map Prod.fst).getD i 0 = seq + i) ∧
        (l.map Prod.fst).getD (l.length - 1) 0 =
          if pm || !q then 0 else seq + (l.length - 1) := by
  intro fuel
  induction fuel with
  | zero =>
    intro idx seq p data hne hlen _ _
    exact absurd (List.eq_nil_of_length_eq_zero (by omega)) hne
  | succ f ih =>
    intro idx seq p data hne hlen hseq1 hseq2
    have hpos : 0 < data.length := List.length_pos.mpr hne
    have hsend : ¬ RCX_ERROR (ora idx) = true := by
      simp only [RCX_ERROR, decide_eq_true_eq, not_lt]
      exact hora idx
    by_cases hA : data.length ≤ chunk
    · have hn : RCX_Link.AdjustChunkSize mz mo data.length data bc = data.length :=
        hadj data.length data hA
      have hcont := incrementProgress_snd_of_cb cb p (RCX_Link.AdjustChunkSize mz mo
        (if data.length ≤ chunk then data.length else chunk) data bc) hcb
      refine ⟨[((if !q || pm then 0 else seq), data)], ?_, ?_, ?_, ?_⟩
      · rw [downloadGo_step mz mo chunk bc q pm cb ora f idx seq p data hne,
          if_neg hsend, if_pos hcont]
        simp only [if_pos hA, hn, List.drop_length, List.take_length]
        rw [downloadGo_nil]
        rfl
      · simp
      · intro i hi
        simp at hi
      · cases q <;> cases pm <;> simp
    · have hB : chunk < data.length := by omega
      have hn : RCX_Link.AdjustChunkSize mz mo chunk data bc = chunk :=
        hadj chunk data (le_refl chunk)
      have hcont := incrementProgress_snd_of_cb cb p (RCX_Link.AdjustChunkSize mz mo
        (if data.length ≤ chunk then data.length else chunk) data bc) hcb
      have hdropne : data.drop chunk ≠ [] := by
        intro hc
        have := congrArg List.length hc
        simp [List.length_drop] at this
        omega
      have hmod : (seq + 1) % 65536 = seq + 1 := Nat.mod_eq_of_lt (by omega)
      have hdrop : (data.drop chunk).length = data.length - chunk := by
        simp [List.length_drop]
      obtain ⟨l1, hl1, hlen1, hmid1, hlast1⟩ := ih (idx + 1) (seq + 1)
        (RCX_Link.IncrementProgress cb p chunk).1
        (data.drop chunk) hdropne (by omega) (by omega) (by omega)
      refine ⟨(seq, data.take chunk) :: l1, ?_, ?_, ?_, ?_⟩
      · rw [downloadGo_step mz mo chunk bc q pm cb ora f idx seq p data hne,
          if_neg hsend, if_pos hcont]
        simp only [if_neg hA, hn, hmod, hl1]
        rfl
      · simp
      · intro i hi
        simp only [List.map_cons, List.length_cons] at hi ⊢
        cases i with
        | zero => simp
        | succ j =>
          rw [List.getD_cons_succ]
          have hj : j + 1 < l1.length := by omega
          rw [hmid1 j hj]
          omega
      · simp only [List.map_cons, List.length_cons]
        have hk : ∃ k, l1.length = k + 1 := ⟨l1.length - 1, by omega⟩
        obtain ⟨k, hk⟩ := hk
        simp only [Nat.add_sub_cancel]
        rw [hk, List.getD_cons_succ]
        have hlast2 := hlast1
        rw [hk] at hlast2
        simp only [Nat.add_sub_cancel] at hlast2
        rw [hlast2]
        split <;> omega

/-- C6: for every payload and every chunk size ≥ 1, the chunk loop of
`RCX_Link::Download` terminates (within `length` iterations) and the adjusted
packet payloads concatenate back to exactly the input — every payload byte is
sent exactly once, in order — so the adjusted packet sizes sum to the payload
length.  The run-length thresholds are positive (23/30 and 90 at every call
site) and the transport sends succeed. -/
theorem download_chunk_loop_total (fMaxZeros fMaxOnes chunk : Nat)
    (bComplement quiet programMode : Bool) (ora : Nat → Int) (p : ProgressState)
    (data : List Nat) (hchunk : 1 ≤ chunk) (hz : 1 ≤ fMaxZeros) (ho : 1 ≤ fMaxOnes)
    (hora : ∀ k, 0 ≤ ora k) :
    ∃ l, RCX_Link.Download fMaxZeros fMaxOnes bComplement quiet programMode
        RCX_Link.DownloadProgress ora p data chunk = DLOut.ok l ∧
      (l.map fun pk => pk.2).flatten = data ∧
      (l.map fun pk => pk.2.length).sum = data.length := by
  obtain ⟨l, hl, hjoin⟩ := downloadGo_ok_join fMaxZeros fMaxOnes chunk bComplement
    quiet programMode RCX_Link.DownloadProgress ora (fun _ _ _ => rfl) hchunk hz ho hora
    data.length 0 1 p data (le_refl data.length)
  refine ⟨l, hl, hjoin, ?_⟩
  calc (l.map fun pk => pk.2.length).sum
      = ((l.map fun pk => pk.2).map List.length).sum := by
        simp [List.map_map, Function.comp_def]
    _ = (l.map fun pk => pk.2).flatten.length := (List.length_flatten _).symm
    _ = data.length := by rw [hjoin]

theorem download_chunk_loop_total_witness :
    ∃ l, RCX_Link.Download 23 90 false false false RCX_Link.DownloadProgress
        (fun _ => 0) (RCX_Link.BeginProgress 8) [1, 2, 3, 4, 5, 6, 7, 8] 3 =
        DLOut.ok l ∧
      (l.map fun pk => pk.2).flatten = [1, 2, 3, 4, 5, 6, 7, 8] ∧
      (l.map fun pk => pk.2.length).sum = [1, 2, 3, 4, 5, 6, 7, 8].length :=
  download_chunk_loop_total 23 90 3 false false false (fun _ => 0)
    (RCX_Link.BeginProgress 8) [1, 2, 3, 4, 5, 6, 7, 8] (by decide) (by decide)
    (by decide) (fun _ => le_refl 0)

/-- C10: with the progress tracker initialized to `total = 0` — as
`TransferFirmware` does via `BeginProgress(progress ? length : 0)` when its
progress flag is false, e.g. for the fast-mode nub transfer — every
`IncrementProgress` call returns true without consulting the
`DownloadProgress` callback (the result is true for every callback, even one
that always requests cancellation), so a chunk loop run under `total = 0`
never returns `kRCX_AbortError`. -/
theorem progress_zero_never_aborts (cb : Nat → Nat → Nat → Bool) (delta : Nat)
    (fMaxZeros fMaxOnes chunk : Nat) (bComplement quiet programMode : Bool)
    (ora : Nat → Int) (fuel idx seq : Nat) (p : ProgressState) (data : List Nat)
    (h : p.fDownloadTotal = 0) :
    (RCX_Link.IncrementProgress cb p delta).2 = true ∧
    downloadGo fMaxZeros fMaxOnes chunk bComplement quiet programMode cb ora
        fuel idx seq p data ≠ DLOut.abort := by
  constructor
  · simp [RCX_Link.IncrementProgress, h]
  · exact downloadGo_total_zero_ne_abort fMaxZeros fMaxOnes chunk bComplement quiet
      programMode cb ora fuel idx seq p data h

theorem progress_zero_never_aborts_witness :
    (RCX_Link.IncrementProgress (fun _ _ _ => false)
        (RCX_Link.TransferFirmwareProgressInit false 4096) 5).2 = true ∧
    downloadGo 23 90 200 false false false (fun _ _ _ => false) (fun _ => 0)
        8 0 1 (RCX_Link.TransferFirmwareProgressInit false 4096)
        [1, 2, 3, 4, 5, 6, 7, 8] ≠ DLOut.abort :=
  progress_zero_never_aborts (fun _ _ _ => false) 5 23 90 200 false false false
    (fun _ => 0) 8 0 1 (RCX_Link.TransferFirmwareProgressInit false 4096)
    [1, 2, 3, 4, 5, 6, 7, 8] (by decide)

/-- C1 counterexample: downloading 24 zero bytes with chunk 24, quiet false,
program mode off, complement off and `fMaxZeros = 23`: on the first iteration
`remain ≤ chunk` already holds, so `seq` is set to 0, but the adaptor shrinks
the packet to 23 bytes and a second packet (also with `seq = 0`) follows.
The first packet is not the final one yet carries sequence number 0, refuting
"every packet except the final one carries a nonzero sequence number" (and
the 1,2,3,... numbering) for general chunk-loop runs. -/
theorem download_seq_counterexample :
    RCX_Link.Download 23 90 false false false RCX_Link.DownloadProgress (fun _ => 0)
        (RCX_Link.BeginProgress 24) (List.replicate 24 0) 24 =
      DLOut.ok [(0, List.replicate 23 0), (0, [0])] := by
  decide

/-- C1 amended: provided every proposed packet size passes the chunk adaptor
unchanged — complement transmission enabled, or `chunk ≤ min(fMaxZeros,
fMaxOnes)`, which is what "no pathological byte patterns" guarantees — and
the payload holds 1 to 65535 bytes, the packets of a chunk-loop run carry
sequence numbers starting at 1 and incrementing by 1 across the non-final
packets, every non-final packet carries a nonzero sequence number, and the
final packet carries 0 iff (programMode ∨ ¬quiet) (else its number `k`);
in particular an 8-byte download with chunk 3 and quiet false sends packets
of sizes (3,3,2) with sequence numbers (1,2,0). -/
theorem download_seq_amended (fMaxZeros fMaxOnes chunk : Nat)
    (bComplement quiet programMode : Bool) (ora : Nat → Int) (p : ProgressState)
    (data : List Nat) (hne : data ≠ []) (hlen : data.length ≤ 65535)
    (hchunk : 1 ≤ chunk) (hora : ∀ k, 0 ≤ ora k)
    (hnice : bComplement = true ∨ (chunk ≤ fMaxZeros ∧ chunk ≤ fMaxOnes)) :
    (∃ l, RCX_Link.Download fMaxZeros fMaxOnes bComplement quiet programMode
        RCX_Link.DownloadProgress ora p data chunk = DLOut.ok l ∧
      1 ≤ l.length ∧
      (∀ i, i + 1 < l.length →
        (l.map Prod.fst).getD i 0 = i + 1 ∧ (l.map Prod.fst).getD i 0 ≠ 0) ∧
      (l.map Prod.fst).getD (l.length - 1) 0 =
        if programMode || !quiet then 0 else l.length) ∧
    RCX_Link.Download 23 90 false false false RCX_Link.DownloadProgress (fun _ => 0)
        (RCX_Link.BeginProgress 8) [1, 2, 3, 4, 5, 6, 7, 8] 3 =
      DLOut.ok [(1, [1, 2, 3]), (2, [4, 5, 6]), (0, [7, 8])] := by
  constructor
  · have hadj : ∀ m d, m ≤ chunk →
        RCX_Link.AdjustChunkSize fMaxZeros fMaxOnes m d bComplement = m := by
      rcases hnice with hc | ⟨hc1, hc2⟩
      · intro m d _
        rw [hc]
        rfl
      · intro m d hm
        cases bComplement
        · exact adjustChunkSize_id_of_small fMaxZeros fMaxOnes m d
            (le_trans hm hc1) (le_trans hm hc2)
        · rfl
    obtain ⟨l, hl, h1, hmid, hlast⟩ := downloadGo_seq_shape fMaxZeros fMaxOnes chunk
      bComplement quiet programMode RCX_Link.DownloadProgress ora (fun _ _ _ => rfl)
      hora hchunk hadj data.length 0 1 p data hne (le_refl data.length) (le_refl 1)
      (by omega)
    refine ⟨l, hl, h1, ?_, ?_⟩
    · intro i hi
      have hv := hmid i hi
      constructor
      · omega
      · omega
    · have heq : 1 + (l.length - 1) = l.length := by omega
      rw [hlast, heq]
  · decide

theorem download_seq_amended_witness :
    (∃ l, RCX_Link.Download 23 90 false false false RCX_Link.DownloadProgress
        (fun _ => 0) (RCX_Link.BeginProgress 3) [5, 6, 7] 2 = DLOut.ok l ∧
      1 ≤ l.length ∧
      (∀ i, i + 1 < l.length →
        (l.map Prod.fst).getD i 0 = i + 1 ∧ (l.map Prod.fst).getD i 0 ≠ 0) ∧
      (l.map Prod.fst).getD (l.length - 1) 0 =
        if false || !false then 0 else l.length) ∧
    RCX_Link.Download 23 90 false false false RCX_Link.DownloadProgress (fun _ => 0)
        (RCX_Link.BeginProgress 8) [1, 2, 3, 4, 5, 6, 7, 8] 3 =
      DLOut.ok [(1, [1, 2, 3]), (2, [4, 5, 6]), (0, [7, 8])] :=
  download_seq_amended 23 90 2 false false false (fun _ => 0)
    (RCX_Link.BeginProgress 3) [5, 6, 7] (by decide) (by decide) (by decide)
    (fun _ => le_refl 0) (Or.inr ⟨by decide, by decide⟩)
